import Mathlib

/-!
Verification of the frame-lifecycle and GPU-resource orchestration layer of
the `learn_wgpu_cpp_to_rust` renderer.  The Rust functions relevant to the
claims are embedded shallowly: pure computations become Lean functions over
`Nat` (machine integers never overflow in the ranges exercised: pixel bytes
are below 256, sums of four bytes below 1024, dimensions and counters stay
far below 2^32), stateful methods become explicit state-passing functions,
and calls that can panic return `Except` values.
-/

namespace LearnWgpu

/-! ## CPU mip generation (`write_mipmaps` in `resources.rs` / `main.rs`) -/

/-- Sequential concatenation `f 0 ++ f 1 ++ ... ++ f (n-1)`, the shape of a
Rust `for` loop over `0..n` that appends to a growing `Vec`. -/
def forRange (f : Nat → List Nat) : Nat → List Nat
  | 0 => []
  | n + 1 => forRange f n ++ f n

/-- One output channel of `write_mipmaps`: the four source indices
`i00, i01, i10, i11` are computed with the stride `2 * width` exactly as in
the source, the channel bytes are summed, divided by 4 (integer division)
and cast back to `u8` (`% 256`).  Out-of-range reads model the byte 0 (the
Rust slice indexing would panic there; the claims are only about in-range
data). -/
def avgChannel (prev : List Nat) (w i j c : Nat) : Nat :=
  let stride := 2 * w
  let i00 := 4 * (stride * (2 * j) + 2 * i)
  let i01 := 4 * (stride * (2 * j) + (2 * i + 1))
  let i10 := 4 * (stride * (2 * j + 1) + 2 * i)
  let i11 := 4 * (stride * (2 * j + 1) + (2 * i + 1))
  ((prev.getD (i00 + c) 0 + prev.getD (i01 + c) 0 + prev.getD (i10 + c) 0 +
      prev.getD (i11 + c) 0) / 4) % 256

/-- The 4 bytes `[r, g, b, a]` that the body of the inner loop of
`write_mipmaps` pushes for loop position `(i, j)`. -/
def mipPixel (prev : List Nat) (w i j : Nat) : List Nat :=
  [avgChannel prev w i j 0, avgChannel prev w i j 1, avgChannel prev w i j 2,
    avgChannel prev w i j 3]

/-- One derived mip level of `write_mipmaps`: outer loop over
`i in 0..width`, inner loop over `j in 0..height`, each iteration extending
the output with one pixel, exactly the loop nest of the source. -/
def nextMipLevel (prev : List Nat) (w h : Nat) : List Nat :=
  forRange (fun i => forRange (fun j => mipPixel prev w i j) h) w

/-- Levels `1, 2, ...` of the loop of `write_mipmaps`: the current
`mip_level_size` is halved (integer division) after each level. -/
def write_mipmaps_go (prev : List Nat) (w h : Nat) : Nat → List (List Nat)
  | 0 => []
  | n + 1 =>
    let pixels := nextMipLevel prev w h
    pixels :: write_mipmaps_go pixels (w / 2) (h / 2) n

/-- `write_mipmaps` (the byte sequences uploaded per mip level): level 0 is
the raw RGBA8 image data, each further level is computed from the previous
one by `nextMipLevel` at the halved size. -/
def write_mipmaps (data : List Nat) (w h : Nat) (count : Nat) :
    List (List Nat) :=
  match count with
  | 0 => []
  | n + 1 => data :: write_mipmaps_go data (w / 2) (h / 2) n

/-! ## Mip level count (`bit_width`, `get_max_mip_level_count`) -/

/-- `bit_width` from `resources.rs` / `main.rs`: `0` for `0`, otherwise
`1 + x.ilog2()`; `u32::ilog2` is the floor of the base-2 logarithm, embedded
as `Nat.log 2`. -/
def bit_width (x : Nat) : Nat :=
  if x = 0 then 0 else 1 + Nat.log 2 x

/-- `get_max_mip_level_count` from `resources.rs`. -/
def get_max_mip_level_count (width height : Nat) : Nat :=
  bit_width (Nat.max width height)

/-! ## GPU mip generation dispatch (`generate_mipmaps` in `compute.rs`) -/

/-- Size of one dimension of mip level `L`, as accumulated by the
`mip_sizes` loop of `generate_mipmaps` (each level is the previous one
divided by 2). -/
def mip_size (w : Nat) : Nat → Nat
  | 0 => w
  | l + 1 => mip_size w l / 2

/-- The workgroup grids dispatched by `generate_mipmaps`, one entry per
level in `1..mip_level_count`.  The source computes
`invocation_count_x = texture.width()` and
`invocation_count_y = texture.height()` — the full level-0 size — for every
level, and ceils by the workgroup size 8 as `(n + 8 - 1) / 8`. -/
def generate_mipmaps_dispatches (w h : Nat) (mipLevelCount : Nat) :
    List (Nat × Nat) :=
  (List.range' 1 (mipLevelCount - 1)).map fun _level =>
    ((w + 8 - 1) / 8, (h + 8 - 1) / 8)

/-! ## Bind group construction (`BindGroup::new` in `bind_group.rs`) -/

/-- Shader stage visibility of a binding. -/
inductive ShaderStages where
  | vertexFragment
  | fragment
  | compute
  deriving DecidableEq, Repr

/-- The binding types used by `BindGroup::new`. -/
inductive BindingType where
  | uniformBuffer
  | texture2D
  | samplerFiltering
  deriving DecidableEq, Repr

/-- One entry of a `wgpu::BindGroupLayoutDescriptor`. -/
structure BindGroupLayoutEntry where
  binding : Nat
  visibility : ShaderStages
  ty : BindingType
  deriving DecidableEq, Repr

/-- A concrete resource handed to a bind group entry; resources are
identified by a host handle (a number). -/
inductive BindingResource where
  | buffer (id : Nat)
  | textureView (id : Nat)
  | samplerRes (id : Nat)
  deriving DecidableEq, Repr

/-- One entry of a `wgpu::BindGroupDescriptor`. -/
structure BindGroupEntry where
  binding : Nat
  resource : BindingResource
  deriving DecidableEq, Repr

/-- The view/sampler pair of an `application::texture::Texture`. -/
structure TextureRes where
  view : Nat
  sampler : Nat
  deriving DecidableEq, Repr

/-- First loop of `BindGroup::new` building layout entries: one uniform
entry per uniform buffer, binding counter starting at `b`. -/
def uniformLayoutEntries (b : Nat) : List Nat → List BindGroupLayoutEntry
  | [] => []
  | _ :: rest =>
    ⟨b, .vertexFragment, .uniformBuffer⟩ :: uniformLayoutEntries (b + 1) rest

/-- Second loop of `BindGroup::new` building layout entries: a texture
entry at `b` and a sampler entry at `b + 1` per texture. -/
def textureLayoutEntries (b : Nat) : List TextureRes → List BindGroupLayoutEntry
  | [] => []
  | _ :: rest =>
    ⟨b, .fragment, .texture2D⟩ :: ⟨b + 1, .fragment, .samplerFiltering⟩ ::
      textureLayoutEntries (b + 2) rest

/-- Third loop of `BindGroup::new` building bind group entries for the
uniform buffers, binding counter reset to `b = 0` by the caller. -/
def uniformGroupEntries (b : Nat) : List Nat → List BindGroupEntry
  | [] => []
  | buf :: rest =>
    ⟨b, .buffer buf⟩ :: uniformGroupEntries (b + 1) rest

/-- Fourth loop of `BindGroup::new` building bind group entries for the
textures: the view at `b`, the sampler at `b + 1`. -/
def textureGroupEntries (b : Nat) : List TextureRes → List BindGroupEntry
  | [] => []
  | t :: rest =>
    ⟨b, .textureView t.view⟩ :: ⟨b + 1, .samplerRes t.sampler⟩ ::
      textureGroupEntries (b + 2) rest

/-- `BindGroup::new`: the layout entry list and the bind group entry list,
both built from the same ordered inputs.  After the uniform loop the
binding counter stands at `uniform_buffers.len()`, where the texture loop
continues; the counter is reset to 0 before the instance loops. -/
def BindGroup.new (uniform_buffers : List Nat) (textures : List TextureRes) :
    List BindGroupLayoutEntry × List BindGroupEntry :=
  (uniformLayoutEntries 0 uniform_buffers ++
      textureLayoutEntries uniform_buffers.length textures,
    uniformGroupEntries 0 uniform_buffers ++
      textureGroupEntries uniform_buffers.length textures)

/-! ## Resize (`ApplicationState::resize` in `application.rs`) -/

/-- Texture formats appearing in the embedded state. -/
inductive TextureFormat where
  | depth24Plus
  | rgba8Unorm
  deriving DecidableEq, Repr

/-- The fields of the stored `wgpu::SurfaceConfiguration` that `resize`
touches. -/
structure SurfaceConfig where
  width : Nat
  height : Nat
  deriving DecidableEq, Repr

/-- The depth texture as created by `init_depth`: dimensions, format and
mip level count of the `wgpu::TextureDescriptor`. -/
structure DepthTexture where
  width : Nat
  height : Nat
  format : TextureFormat
  mipLevelCount : Nat
  deriving DecidableEq, Repr

/-- Symbolic 4x4 matrices: the projection is
`Mat4::perspective_lh(45°, w as f32 / h as f32, 0.01, 100.0)` (a
deterministic function of `w` and `h`, recorded by its arguments) and the
initial view matrix is a fixed `look_at`. -/
inductive Mat4R where
  | perspectiveLH (aspectW aspectH : Nat)
  | lookAtInit
  | identity
  deriving DecidableEq, Repr

/-- The slice of `ApplicationState` that `resize` reads or writes. -/
structure AppRenderState where
  config : SurfaceConfig
  depth : DepthTexture
  projection : Mat4R
  deriving DecidableEq, Repr

/-- Side effects of `resize` on the GPU surface. -/
inductive ResizeEffect where
  | configureSurface (config : SurfaceConfig)
  deriving DecidableEq, Repr

/-- `init_depth` from `application.rs`: a fresh `Depth24Plus` texture of
the given size with a single mip level. -/
def init_depth (width height : Nat) : DepthTexture :=
  ⟨width, height, .depth24Plus, 1⟩

/-- `ApplicationState::resize`: guarded by
`new_size.width > 0 && new_size.height > 0`; inside the guard it stores the
new dimensions in the surface configuration, reconfigures the surface with
that configuration, recreates the depth texture via `init_depth` and
recomputes the projection matrix from the new aspect ratio.  Returns the
new state together with the list of surface configurations issued. -/
def resize (s : AppRenderState) (width height : Nat) :
    AppRenderState × List ResizeEffect :=
  if 0 < width ∧ 0 < height then
    let config : SurfaceConfig := ⟨width, height⟩
    (⟨config, init_depth width height, .perspectiveLH width height⟩,
      [.configureSurface config])
  else
    (s, [])

/-! ## Frame acquisition (`WgpuContext::get_current_texture` in
`wgpu_context.rs`, duplicated in `ApplicationState::render`) -/

/-- The result the surface reports for one `get_current_texture` call:
either a frame or one of the `wgpu::SurfaceError` variants handled by the
code. -/
inductive AcqResult where
  | ok (frame : Nat)
  | timeout
  | outdated
  | lost
  | outOfMemory
  deriving DecidableEq, Repr

/-- `.expect(...)` on a retry: a frame on success, `none` (process panic)
otherwise. -/
def expectFrame : AcqResult → Option Nat
  | .ok frame => some frame
  | _ => none

/-- `WgpuContext::get_current_texture`, with the environment supplying the
results of the first and (if reached) second surface acquisition attempt.
Returns the acquired frame (`none` = panic), the list of surface
configurations passed to `surface.configure`, and the number of
acquisition attempts made. -/
def get_current_texture (config : SurfaceConfig) (first retry : AcqResult) :
    Option Nat × List SurfaceConfig × Nat :=
  match first with
  | .ok frame => (some frame, [], 1)
  | .timeout => (expectFrame retry, [], 2)
  | .outdated => (expectFrame retry, [config], 2)
  | .lost => (expectFrame retry, [config], 2)
  | .outOfMemory => (expectFrame retry, [config], 2)

/-! ## Buffer construction (`DataBuffer::new`, `UninitBuffer::initialize`
in `buffer.rs`) -/

/-- The host-side content of a `DataBuffer<T>` after construction. -/
structure DataBufferModel (α : Type) where
  data : α
  deriving DecidableEq, Repr

/-- The assertion message of the alignment check in `buffer.rs`. -/
def alignPanicMsg : String := "Data alignment needs to be multiple of 4"

/-- `DataBuffer::new`: asserts `align_of::<T>() % 4 == 0` before creating
the buffer; the panic is modelled as an `Except.error` carrying the
assertion message. -/
def DataBuffer.new (alignOfT : Nat) {α : Type} (data : α) :
    Except String (DataBufferModel α) :=
  if alignOfT % 4 = 0 then .ok ⟨data⟩ else .error alignPanicMsg

/-- `UninitBuffer::initialize`: performs the same alignment assertion, then
writes `data` and returns the `DataBuffer`. -/
def UninitBuffer.initData (alignOfT : Nat) {α : Type} (data : α) :
    Except String (DataBufferModel α) :=
  if alignOfT % 4 = 0 then .ok ⟨data⟩ else .error alignPanicMsg

/-- The concrete 4x4 RGBA8 test image for the mip-orientation analysis:
pixel `(x, y)` carries the byte `16 * y + x` in all four channels. -/
def c1Image : List Nat :=
  (List.range 4).flatMap fun y => (List.range 4).flatMap fun x =>
    List.replicate 4 (16 * y + x)

/-! ## Helper lemmas -/

lemma forRange_length (f : Nat → List Nat) (L : Nat)
    (hf : ∀ k, (f k).length = L) : ∀ n, (forRange f n).length = n * L := by
  intro n
  induction n with
  | zero => simp [forRange]
  | succ m ih => simp [forRange, ih, hf, Nat.succ_mul]

lemma forRange_getD (f : Nat → List Nat) (L : Nat)
    (hf : ∀ k, (f k).length = L) :
    ∀ n i r, i < n → r < L →
      (forRange f n).getD (L * i + r) 0 = (f i).getD r 0 := by
  intro n
  induction n with
  | zero => intro i r hi _; omega
  | succ m ih =>
    intro i r hi hr
    rw [forRange, List.getD_eq_getElem?_getD]
    by_cases h : i < m
    · have hlt : L * i + r < (forRange f m).length := by
        rw [forRange_length f L hf m]
        have h2 : L * (i + 1) ≤ L * m := Nat.mul_le_mul_left L h
        rw [Nat.mul_succ] at h2
        have h3 : m * L = L * m := Nat.mul_comm m L
        omega
      rw [List.getElem?_append_left hlt, ← List.getD_eq_getElem?_getD]
      exact ih i r h hr
    · have him : i = m := by omega
      subst him
      have hge : (forRange f i).length ≤ L * i + r := by
        rw [forRange_length f L hf i, Nat.mul_comm]
        omega
      rw [List.getElem?_append_right hge, forRange_length f L hf i]
      rw [← List.getD_eq_getElem?_getD]
      congr 1
      rw [Nat.mul_comm]
      omega

lemma getD_lt_of_forall (l : List Nat) (hb : ∀ b ∈ l, b < 256) (n : Nat) :
    l.getD n 0 < 256 := by
  rw [List.getD_eq_getElem?_getD]
  cases h : l[n]? with
  | none => simp
  | some v => simpa using hb v (List.getElem?_mem h)

lemma nextMipLevel_getD (prev : List Nat) (w h i j c : Nat)
    (hi : i < w) (hj : j < h) (hc : c < 4) :
    (nextMipLevel prev w h).getD (4 * (i * h + j) + c) 0 =
      avgChannel prev w i j c := by
  have hinner : ∀ k,
      (forRange (fun j => mipPixel prev w k j) h).length = h * 4 :=
    fun k => forRange_length (fun j => mipPixel prev w k j) 4 (fun _ => rfl) h
  have e1 : 4 * (i * h + j) + c = h * 4 * i + (4 * j + c) := by ring
  rw [nextMipLevel, e1,
    forRange_getD (fun i => forRange (fun j => mipPixel prev w i j) h)
      (h * 4) hinner w i (4 * j + c) hi (by omega),
    forRange_getD (fun j => mipPixel prev w i j) 4 (fun _ => rfl) h j c hj hc]
  interval_cases c <;> rfl

lemma avgChannel_eq_of_bytes (prev : List Nat) (w i j c : Nat)
    (hb : ∀ b ∈ prev, b < 256) :
    avgChannel prev w i j c =
      (prev.getD (4 * (2 * w * (2 * j) + 2 * i) + c) 0 +
          prev.getD (4 * (2 * w * (2 * j) + (2 * i + 1)) + c) 0 +
          prev.getD (4 * (2 * w * (2 * j + 1) + 2 * i) + c) 0 +
          prev.getD (4 * (2 * w * (2 * j + 1) + (2 * i + 1)) + c) 0) / 4 := by
  unfold avgChannel
  apply Nat.mod_eq_of_lt
  have h1 := getD_lt_of_forall prev hb (4 * (2 * w * (2 * j) + 2 * i) + c)
  have h2 := getD_lt_of_forall prev hb (4 * (2 * w * (2 * j) + (2 * i + 1)) + c)
  have h3 := getD_lt_of_forall prev hb (4 * (2 * w * (2 * j + 1) + 2 * i) + c)
  have h4 := getD_lt_of_forall prev hb
    (4 * (2 * w * (2 * j + 1) + (2 * i + 1)) + c)
  omega

lemma write_mipmaps_go_getD_succ (p : List Nat) (w h m k : Nat) :
    (write_mipmaps_go p w h (m + 1)).getD (k + 1) [] =
      (write_mipmaps_go (nextMipLevel p w h) (w / 2) (h / 2) m).getD k [] :=
  rfl

lemma write_mipmaps_go_level_succ :
    ∀ L m (prev : List Nat) (w h : Nat), L + 1 < m →
      (write_mipmaps_go prev w h m).getD (L + 1) [] =
        nextMipLevel ((write_mipmaps_go prev w h m).getD L [])
          (w / 2 ^ (L + 1)) (h / 2 ^ (L + 1)) := by
  intro L
  induction L with
  | zero =>
    intro m prev w h hm
    match m, hm with
    | m' + 2, _ => simp [write_mipmaps_go, Nat.pow_one]
  | succ L ih =>
    intro m prev w h hm
    match m, hm with
    | m' + 1, hm =>
      have hm' : L + 1 < m' := by omega
      rw [write_mipmaps_go_getD_succ prev w h m' (L + 1),
        write_mipmaps_go_getD_succ prev w h m' L,
        ih m' (nextMipLevel prev w h) (w / 2) (h / 2) hm']
      congr 1 <;> rw [Nat.div_div_eq_div_mul, ← Nat.pow_succ']

lemma write_mipmaps_level_succ (data : List Nat) (w h : Nat) :
    ∀ n L, L + 1 < n →
      (write_mipmaps data w h n).getD (L + 1) [] =
        nextMipLevel ((write_mipmaps data w h n).getD L [])
          (w / 2 ^ (L + 1)) (h / 2 ^ (L + 1)) := by
  intro n L hn
  match n, hn with
  | n' + 1, hn =>
    cases L with
    | zero =>
      match n', hn with
      | n'' + 1, _ => simp [write_mipmaps, write_mipmaps_go, Nat.pow_one]
    | succ L =>
      show (write_mipmaps_go data (w / 2) (h / 2) n').getD (L + 1) [] = _
      rw [write_mipmaps_go_level_succ L n' data (w / 2) (h / 2) (by omega)]
      show _ =
        nextMipLevel ((write_mipmaps_go data (w / 2) (h / 2) n').getD L [])
          (w / 2 ^ (L + 1 + 1)) (h / 2 ^ (L + 1 + 1))
      congr 1 <;> rw [Nat.div_div_eq_div_mul, ← Nat.pow_succ']

/-! ## Claim theorems -/

/-- Claim C1 (code bug): on the concrete 4x4 level-0 image `c1Image`, the
derived level 1 of `write_mipmaps` is NOT the row-major byte sequence the
claim describes.  The loop nest iterates the width index in the outer loop
and pushes pixels in x-major order, so the pixel computed from the 2x2
block at `(2x, 2y)` lands at byte offset `4 * (x * H + y)` instead of the
row-major offset `4 * (y * W + x)`.  At row-major position `(1, 0)` of
level 1 (byte offset 4) the produced byte is 40 — the average of the
level-0 block at `(0, 2)..(1, 3)` — while the average of the four level-0
pixels `(2,0), (3,0), (2,1), (3,1)` required by the claim is 10.  The
upload of each level declares `bytes_per_row = 4 * width`, i.e. row-major
data, so the stored mip levels are transposed. -/
theorem write_mipmaps_level1_transposed :
    write_mipmaps c1Image 4 4 3 =
      [c1Image,
        [8, 8, 8, 8, 40, 40, 40, 40, 10, 10, 10, 10, 42, 42, 42, 42],
        [25, 25, 25, 25]] ∧
    ((write_mipmaps c1Image 4 4 3).getD 1 []).getD (4 * (0 * 2 + 1) + 0) 0 =
      40 ∧
    (c1Image.getD (4 * (0 * 4 + 2) + 0) 0 +
        c1Image.getD (4 * (0 * 4 + 3) + 0) 0 +
        c1Image.getD (4 * (1 * 4 + 2) + 0) 0 +
        c1Image.getD (4 * (1 * 4 + 3) + 0) 0) / 4 = 10 := by
  decide

/-- Claim C2: in `write_mipmaps`, every derived level is `nextMipLevel` of
the previous level at the halved dimensions, and each channel of the pixel
that the loop iteration `(i, j)` of `nextMipLevel` produces (stored at byte
offset `4 * (i * h + j)`) is the integer-truncating quotient by 4 of the
sum of that channel over the four source pixels the code reads — never a
rounded or fractional value (`Nat` division truncates). -/
theorem write_mipmaps_channel_truncating_avg :
    (∀ (data : List Nat) (w h n L : Nat), L + 1 < n →
      (write_mipmaps data w h n).getD (L + 1) [] =
        nextMipLevel ((write_mipmaps data w h n).getD L [])
          (w / 2 ^ (L + 1)) (h / 2 ^ (L + 1))) ∧
    (∀ (prev : List Nat) (w h i j c : Nat), i < w → j < h → c < 4 →
      (∀ b ∈ prev, b < 256) →
      (nextMipLevel prev w h).getD (4 * (i * h + j) + c) 0 =
        (prev.getD (4 * (2 * w * (2 * j) + 2 * i) + c) 0 +
            prev.getD (4 * (2 * w * (2 * j) + (2 * i + 1)) + c) 0 +
            prev.getD (4 * (2 * w * (2 * j + 1) + 2 * i) + c) 0 +
            prev.getD (4 * (2 * w * (2 * j + 1) + (2 * i + 1)) + c) 0) / 4) :=
  ⟨fun data w h n L hn => write_mipmaps_level_succ data w h n L hn,
    fun prev w h i j c hi hj hc hb =>
      (nextMipLevel_getD prev w h i j c hi hj hc).trans
        (avgChannel_eq_of_bytes prev w i j c hb)⟩

/-- Witness for C2 on a 2x2 image whose four pixels carry 10, 20, 30, 40 in
every channel: the single derived pixel's channel 0 is `100 / 4 = 25`; and
on four pixels carrying 1, 1, 1, 2 the result is `5 / 4 = 1` (truncation,
not rounding). -/
theorem write_mipmaps_channel_truncating_avg_witness :
    (0 : Nat) < 1 ∧ (0 : Nat) < 4 ∧
    (nextMipLevel
        [10, 10, 10, 10, 20, 20, 20, 20, 30, 30, 30, 30, 40, 40, 40, 40]
        1 1).getD (4 * (0 * 1 + 0) + 0) 0 =
      ([10, 10, 10, 10, 20, 20, 20, 20, 30, 30, 30, 30, 40, 40, 40,
          40].getD (4 * (2 * 1 * (2 * 0) + 2 * 0) + 0) 0 +
        [10, 10, 10, 10, 20, 20, 20, 20, 30, 30, 30, 30, 40, 40, 40,
          40].getD (4 * (2 * 1 * (2 * 0) + (2 * 0 + 1)) + 0) 0 +
        [10, 10, 10, 10, 20, 20, 20, 20, 30, 30, 30, 30, 40, 40, 40,
          40].getD (4 * (2 * 1 * (2 * 0 + 1) + 2 * 0) + 0) 0 +
        [10, 10, 10, 10, 20, 20, 20, 20, 30, 30, 30, 30, 40, 40, 40,
          40].getD (4 * (2 * 1 * (2 * 0 + 1) + (2 * 0 + 1)) + 0) 0) / 4 ∧
    (nextMipLevel
        [10, 10, 10, 10, 20, 20, 20, 20, 30, 30, 30, 30, 40, 40, 40, 40]
        1 1).getD 0 0 = 25 ∧
    (nextMipLevel [1, 1, 1, 1, 1, 1, 1, 1, 1, 1, 1, 1, 2, 2, 2, 2]
        1 1).getD 0 0 = 1 :=
  ⟨by decide, by decide,
    write_mipmaps_channel_truncating_avg.2
      [10, 10, 10, 10, 20, 20, 20, 20, 30, 30, 30, 30, 40, 40, 40, 40]
      1 1 0 0 0 (by decide) (by decide) (by decide) (by decide),
    by decide, by decide⟩

/-- Claim C3: for every image with width and height at least 1, the mip
level count computed by `get_max_mip_level_count` equals
`1 + floor(log2(max(W, H)))` (`Nat.log 2` is the floor base-2 logarithm:
the bracketing inequalities are included). -/
theorem get_max_mip_level_count_eq (w h : Nat) (hw : 1 ≤ w) (_hh : 1 ≤ h) :
    get_max_mip_level_count w h = 1 + Nat.log 2 (Nat.max w h) ∧
    2 ^ Nat.log 2 (Nat.max w h) ≤ Nat.max w h ∧
    Nat.max w h < 2 ^ (Nat.log 2 (Nat.max w h) + 1) := by
  have hpos : 0 < Nat.max w h := lt_of_lt_of_le hw (Nat.le_max_left w h)
  have hmax : Nat.max w h ≠ 0 := hpos.ne'
  refine ⟨?_, Nat.pow_log_le_self 2 hmax,
    Nat.lt_pow_succ_log_self (by norm_num) _⟩
  unfold get_max_mip_level_count bit_width
  rw [if_neg hmax]

/-- Witness for C3: a 256x256 image gets 9 mip levels. -/
theorem get_max_mip_level_count_eq_witness :
    1 ≤ 256 ∧ 1 ≤ 256 ∧ get_max_mip_level_count 256 256 = 9 := by
  refine ⟨by decide, by decide, ?_⟩
  have h := (get_max_mip_level_count_eq 256 256 (by decide) (by decide)).1
  have hm : Nat.max 256 256 = 256 := by simp
  have hl : Nat.log 2 256 = 8 :=
    Nat.log_eq_of_pow_le_of_lt_pow (by norm_num) (by norm_num)
  rw [h, hm, hl]

/-- Claim C4 counterexample: for a 16x16 texture with 5 mip levels,
`generate_mipmaps` dispatches a 2x2 workgroup grid for every level in
`1..5`, whereas the claim requires `ceil(width_L / 8) = 1` workgroup per
dimension already at level 1 (whose size `mip_size 16 1` is 8). -/
theorem generate_mipmaps_dispatches_not_per_level :
    generate_mipmaps_dispatches 16 16 5 = [(2, 2), (2, 2), (2, 2), (2, 2)] ∧
    mip_size 16 1 = 8 ∧
    ((mip_size 16 1 + 8 - 1) / 8, (mip_size 16 1 + 8 - 1) / 8) = (1, 1) ∧
    (generate_mipmaps_dispatches 16 16 5).getD 0 (0, 0) ≠ (1, 1) := by
  decide

/-- Claim C4 (amended): for each level `L` in `1..mip_level_count`,
`generate_mipmaps` dispatches `ceil(W0 / 8) x ceil(H0 / 8)` workgroups
where `W0, H0` are the full level-0 texture dimensions — the same grid for
every level, not the level-`L` dimensions. -/
theorem generate_mipmaps_dispatches_const (w h c : Nat) :
    generate_mipmaps_dispatches w h c =
      List.replicate (c - 1) ((w + 8 - 1) / 8, (h + 8 - 1) / 8) := by
  unfold generate_mipmaps_dispatches
  rw [List.map_const', List.length_range']

/-- Claim C10: `bit_width` is total at zero: `bit_width 0 = 0` and a 0x0
image gets a mip level count of 0 rather than `1 + floor(log2 0)`; for
every positive `x` the value is `1 + floor(log2 x)`. -/
theorem bit_width_total :
    bit_width 0 = 0 ∧ get_max_mip_level_count 0 0 = 0 ∧
    ∀ x, 1 ≤ x → bit_width x = 1 + Nat.log 2 x := by
  refine ⟨rfl, rfl, fun x hx => ?_⟩
  unfold bit_width
  rw [if_neg (by omega)]

/-- Witness for C10: `bit_width 8 = 4`. -/
theorem bit_width_total_witness : 1 ≤ 8 ∧ bit_width 8 = 4 := by
  refine ⟨by decide, ?_⟩
  have h := bit_width_total.2.2 8 (by decide)
  have hl : Nat.log 2 8 = 3 :=
    Nat.log_eq_of_pow_le_of_lt_pow (by norm_num) (by norm_num)
  rw [h, hl]

lemma uniformLayoutEntries_length (l : List Nat) :
    ∀ b, (uniformLayoutEntries b l).length = l.length := by
  induction l with
  | nil => intro b; rfl
  | cons x rest ih => intro b; simp [uniformLayoutEntries, ih]

lemma textureLayoutEntries_length (l : List TextureRes) :
    ∀ b, (textureLayoutEntries b l).length = 2 * l.length := by
  induction l with
  | nil => intro b; rfl
  | cons t rest ih =>
    intro b
    simp [textureLayoutEntries, ih]
    omega

lemma uniformGroupEntries_length (l : List Nat) :
    ∀ b, (uniformGroupEntries b l).length = l.length := by
  induction l with
  | nil => intro b; rfl
  | cons x rest ih => intro b; simp [uniformGroupEntries, ih]

lemma textureGroupEntries_length (l : List TextureRes) :
    ∀ b, (textureGroupEntries b l).length = 2 * l.length := by
  induction l with
  | nil => intro b; rfl
  | cons t rest ih =>
    intro b
    simp [textureGroupEntries, ih]
    omega

lemma uniformLayoutEntries_get? (l : List Nat) :
    ∀ b k, k < l.length →
      (uniformLayoutEntries b l).get? k =
        some ⟨b + k, .vertexFragment, .uniformBuffer⟩ := by
  induction l with
  | nil => intro b k hk; simp at hk
  | cons x rest ih =>
    intro b k hk
    cases k with
    | zero => rfl
    | succ k' =>
      have := ih (b + 1) k' (by simpa using hk)
      simpa [uniformLayoutEntries, Nat.add_assoc, Nat.add_comm 1 k'] using this

lemma uniformGroupEntries_get? (l : List Nat) :
    ∀ b k, k < l.length →
      (uniformGroupEntries b l).get? k =
        some ⟨b + k, .buffer (l.getD k 0)⟩ := by
  induction l with
  | nil => intro b k hk; simp at hk
  | cons x rest ih =>
    intro b k hk
    cases k with
    | zero => rfl
    | succ k' =>
      have := ih (b + 1) k' (by simpa using hk)
      simpa [uniformGroupEntries, Nat.add_assoc, Nat.add_comm 1 k'] using this

lemma textureLayoutEntries_get? (l : List TextureRes) :
    ∀ b k, k < l.length →
      (textureLayoutEntries b l).get? (2 * k) =
        some ⟨b + 2 * k, .fragment, .texture2D⟩ ∧
      (textureLayoutEntries b l).get? (2 * k + 1) =
        some ⟨b + 2 * k + 1, .fragment, .samplerFiltering⟩ := by
  induction l with
  | nil => intro b k hk; simp at hk
  | cons t rest ih =>
    intro b k hk
    cases k with
    | zero => exact ⟨rfl, rfl⟩
    | succ k' =>
      have h2 : 2 * (k' + 1) = 2 * k' + 1 + 1 := by ring
      have := ih (b + 2) k' (by simpa using hk)
      constructor
      · rw [h2]
        show (textureLayoutEntries (b + 2) rest).get? (2 * k') = _
        rw [this.1]
        congr 2
        omega
      · rw [h2]
        show (textureLayoutEntries (b + 2) rest).get? (2 * k' + 1) = _
        rw [this.2]
        congr 2
        omega

lemma textureGroupEntries_get? (l : List TextureRes) :
    ∀ b k, k < l.length →
      (textureGroupEntries b l).get? (2 * k) =
        some ⟨b + 2 * k, .textureView (l.getD k ⟨0, 0⟩).view⟩ ∧
      (textureGroupEntries b l).get? (2 * k + 1) =
        some ⟨b + 2 * k + 1, .samplerRes (l.getD k ⟨0, 0⟩).sampler⟩ := by
  induction l with
  | nil => intro b k hk; simp at hk
  | cons t rest ih =>
    intro b k hk
    cases k with
    | zero => exact ⟨rfl, rfl⟩
    | succ k' =>
      have h2 : 2 * (k' + 1) = 2 * k' + 1 + 1 := by ring
      have := ih (b + 2) k' (by simpa using hk)
      constructor
      · rw [h2]
        show (textureGroupEntries (b + 2) rest).get? (2 * k') = _
        rw [this.1]
        congr 2
        omega
      · rw [h2]
        show (textureGroupEntries (b + 2) rest).get? (2 * k' + 1) = _
        rw [this.2]
        congr 2
        omega

lemma uniformEntries_map_binding (l : List Nat) :
    ∀ b, (uniformLayoutEntries b l).map BindGroupLayoutEntry.binding =
      (uniformGroupEntries b l).map BindGroupEntry.binding := by
  induction l with
  | nil => intro b; rfl
  | cons x rest ih =>
    intro b
    simp [uniformLayoutEntries, uniformGroupEntries, ih]

lemma textureEntries_map_binding (l : List TextureRes) :
    ∀ b, (textureLayoutEntries b l).map BindGroupLayoutEntry.binding =
      (textureGroupEntries b l).map BindGroupEntry.binding := by
  induction l with
  | nil => intro b; rfl
  | cons t rest ih =>
    intro b
    simp [textureLayoutEntries, textureGroupEntries, ih]

/-- Claim C5: `BindGroup::new` assigns purely positional slots: uniform
buffers get bindings `0..n-1` with vertex-and-fragment visibility, the
`k`-th texture gets a texture-view binding at slot `n + 2k` and a sampler
binding at slot `n + 2k + 1`, both fragment-only; the bind group instance
entries carry exactly the same binding numbers in the same input order
(with the `k`-th uniform buffer, texture view and sampler resources), so
layout and instance slot numbering always match. -/
theorem BindGroup_new_positional (ubs : List Nat) (texs : List TextureRes) :
    ((BindGroup.new ubs texs).1.length = ubs.length + 2 * texs.length) ∧
    ((BindGroup.new ubs texs).2.length = ubs.length + 2 * texs.length) ∧
    (∀ k, k < ubs.length →
      (BindGroup.new ubs texs).1.get? k =
        some ⟨k, .vertexFragment, .uniformBuffer⟩ ∧
      (BindGroup.new ubs texs).2.get? k = some ⟨k, .buffer (ubs.getD k 0)⟩) ∧
    (∀ k, k < texs.length →
      (BindGroup.new ubs texs).1.get? (ubs.length + 2 * k) =
        some ⟨ubs.length + 2 * k, .fragment, .texture2D⟩ ∧
      (BindGroup.new ubs texs).1.get? (ubs.length + 2 * k + 1) =
        some ⟨ubs.length + 2 * k + 1, .fragment, .samplerFiltering⟩ ∧
      (BindGroup.new ubs texs).2.get? (ubs.length + 2 * k) =
        some ⟨ubs.length + 2 * k, .textureView (texs.getD k ⟨0, 0⟩).view⟩ ∧
      (BindGroup.new ubs texs).2.get? (ubs.length + 2 * k + 1) =
        some ⟨ubs.length + 2 * k + 1,
          .samplerRes (texs.getD k ⟨0, 0⟩).sampler⟩) ∧
    ((BindGroup.new ubs texs).1.map BindGroupLayoutEntry.binding =
      (BindGroup.new ubs texs).2.map BindGroupEntry.binding) := by
  have hul := uniformLayoutEntries_length ubs 0
  have hug := uniformGroupEntries_length ubs 0
  refine ⟨?_, ?_, ?_, ?_, ?_⟩
  · simp [BindGroup.new, hul, textureLayoutEntries_length]
  · simp [BindGroup.new, hug, textureGroupEntries_length]
  · intro k hk
    constructor
    · show (uniformLayoutEntries 0 ubs ++ _).get? k = _
      rw [List.get?_eq_getElem?, List.getElem?_append_left (by omega),
        ← List.get?_eq_getElem?, uniformLayoutEntries_get? ubs 0 k hk,
        Nat.zero_add]
    · show (uniformGroupEntries 0 ubs ++ _).get? k = _
      rw [List.get?_eq_getElem?, List.getElem?_append_left (by omega),
        ← List.get?_eq_getElem?, uniformGroupEntries_get? ubs 0 k hk,
        Nat.zero_add]
  · intro k hk
    have hL := textureLayoutEntries_get? texs ubs.length k hk
    have hG := textureGroupEntries_get? texs ubs.length k hk
    refine ⟨?_, ?_, ?_, ?_⟩
    · show (uniformLayoutEntries 0 ubs ++ _).get? (ubs.length + 2 * k) = _
      rw [List.get?_eq_getElem?, List.getElem?_append_right (by omega),
        ← List.get?_eq_getElem?, hul]
      have : ubs.length + 2 * k - ubs.length = 2 * k := by omega
      rw [this, hL.1]
    · show (uniformLayoutEntries 0 ubs ++ _).get?
        (ubs.length + 2 * k + 1) = _
      rw [List.get?_eq_getElem?, List.getElem?_append_right (by omega),
        ← List.get?_eq_getElem?, hul]
      have : ubs.length + 2 * k + 1 - ubs.length = 2 * k + 1 := by omega
      rw [this, hL.2]
    · show (uniformGroupEntries 0 ubs ++ _).get? (ubs.length + 2 * k) = _
      rw [List.get?_eq_getElem?, List.getElem?_append_right (by omega),
        ← List.get?_eq_getElem?, hug]
      have : ubs.length + 2 * k - ubs.length = 2 * k := by omega
      rw [this, hG.1]
    · show (uniformGroupEntries 0 ubs ++ _).get?
        (ubs.length + 2 * k + 1) = _
      rw [List.get?_eq_getElem?, List.getElem?_append_right (by omega),
        ← List.get?_eq_getElem?, hug]
      have : ubs.length + 2 * k + 1 - ubs.length = 2 * k + 1 := by omega
      rw [this, hG.2]
  · show (uniformLayoutEntries 0 ubs ++ _).map _ =
      (uniformGroupEntries 0 ubs ++ _).map _
    rw [List.map_append, List.map_append, uniformEntries_map_binding,
      textureEntries_map_binding]

/-- Witness for C5 at the spec's example of 2 uniform buffers and 2
textures: layout slots `[0, 1]` for the uniforms and `[2, 3]`, `[4, 5]`
for the two (view, sampler) pairs. -/
theorem BindGroup_new_positional_witness :
    0 < 2 ∧
    (BindGroup.new [10, 11] [⟨20, 21⟩, ⟨30, 31⟩]).1.get? 2 =
      some ⟨2, .fragment, .texture2D⟩ ∧
    (BindGroup.new [10, 11] [⟨20, 21⟩, ⟨30, 31⟩]).1.get? 5 =
      some ⟨5, .fragment, .samplerFiltering⟩ ∧
    (BindGroup.new [10, 11] [⟨20, 21⟩, ⟨30, 31⟩]).2.get? 4 =
      some ⟨4, .textureView 30⟩ :=
  ⟨by decide,
    ((BindGroup_new_positional [10, 11] [⟨20, 21⟩, ⟨30, 31⟩]).2.2.2.1 0
      (by decide)).1,
    (((BindGroup_new_positional [10, 11] [⟨20, 21⟩, ⟨30, 31⟩]).2.2.2.1 1
      (by decide)).2.1),
    (((BindGroup_new_positional [10, 11] [⟨20, 21⟩, ⟨30, 31⟩]).2.2.2.1 1
      (by decide)).2.2.1)⟩

/-- Claim C6: a resize with a zero dimension is a complete no-op: the
stored surface configuration, depth texture and projection matrix are
unchanged and no surface reconfiguration is issued. -/
theorem resize_zero_noop (s : AppRenderState) (w h : Nat)
    (hz : w = 0 ∨ h = 0) : resize s w h = (s, []) := by
  unfold resize
  rw [if_neg (by omega)]

/-- Witness for C6: `resize(0, 360)` on a sample 640x480 state. -/
theorem resize_zero_noop_witness :
    ((0 : Nat) = 0 ∨ (360 : Nat) = 0) ∧
    resize ⟨⟨640, 480⟩, ⟨640, 480, .depth24Plus, 1⟩, .perspectiveLH 640 480⟩
        0 360 =
      (⟨⟨640, 480⟩, ⟨640, 480, .depth24Plus, 1⟩, .perspectiveLH 640 480⟩,
        []) :=
  ⟨Or.inl rfl,
    resize_zero_noop
      ⟨⟨640, 480⟩, ⟨640, 480, .depth24Plus, 1⟩, .perspectiveLH 640 480⟩
      0 360 (Or.inl rfl)⟩

/-- Claim C7: frame acquisition policy of `get_current_texture`.  A
first-attempt success reconfigures nothing and makes one attempt; a
timeout makes exactly one retry with no reconfiguration; an outdated, lost
or out-of-memory error reconfigures the surface exactly once with the
stored configuration and makes exactly one retry; the single retry's
result is unwrapped by `expect`, so any failure there is a panic (`none`),
and an `ok` retry yields its frame. -/
theorem get_current_texture_policy (config : SurfaceConfig) (frame : Nat)
    (retry : AcqResult) :
    get_current_texture config (.ok frame) retry = (some frame, [], 1) ∧
    get_current_texture config .timeout retry = (expectFrame retry, [], 2) ∧
    get_current_texture config .outdated retry =
      (expectFrame retry, [config], 2) ∧
    get_current_texture config .lost retry =
      (expectFrame retry, [config], 2) ∧
    get_current_texture config .outOfMemory retry =
      (expectFrame retry, [config], 2) ∧
    expectFrame (.ok frame) = some frame ∧
    expectFrame .timeout = none ∧
    expectFrame .outdated = none ∧
    expectFrame .lost = none ∧
    expectFrame .outOfMemory = none :=
  ⟨rfl, rfl, rfl, rfl, rfl, rfl, rfl, rfl, rfl, rfl⟩

/-- Claim C8: resize is idempotent: for positive dimensions, resizing
twice with the same `(w, h)` leaves exactly the state a single resize
produces (surface configuration dimensions, depth texture and projection
matrix included). -/
theorem resize_idempotent (s : AppRenderState) (w h : Nat)
    (hw : 0 < w) (hh : 0 < h) :
    (resize (resize s w h).1 w h).1 = (resize s w h).1 := by
  simp [resize, hw, hh]

/-- Witness for C8: resizing a sample state twice to 800x600. -/
theorem resize_idempotent_witness :
    (0 : Nat) < 800 ∧ (0 : Nat) < 600 ∧
    (resize
        (resize ⟨⟨640, 480⟩, ⟨640, 480, .depth24Plus, 1⟩, .lookAtInit⟩
          800 600).1 800 600).1 =
      (resize ⟨⟨640, 480⟩, ⟨640, 480, .depth24Plus, 1⟩, .lookAtInit⟩
        800 600).1 :=
  ⟨by decide, by decide,
    resize_idempotent ⟨⟨640, 480⟩, ⟨640, 480, .depth24Plus, 1⟩, .lookAtInit⟩
      800 600 (by decide) (by decide)⟩

/-- Claim C9: `DataBuffer::new` and `UninitBuffer::initialize` assert at
construction time that the data type's alignment is a multiple of 4: they
panic (assertion failure, not a recoverable error) exactly when
`align_of::<T>() % 4 != 0`, and otherwise construct the buffer with the
given data. -/
theorem dataBuffer_align_assert (align : Nat) (α : Type) (d : α) :
    (align % 4 = 0 →
      DataBuffer.new align d = .ok ⟨d⟩ ∧
      UninitBuffer.initData align d = .ok ⟨d⟩) ∧
    (align % 4 ≠ 0 →
      DataBuffer.new align d = .error alignPanicMsg ∧
      UninitBuffer.initData align d = .error alignPanicMsg) := by
  constructor <;> intro hA <;>
    constructor <;> simp [DataBuffer.new, UninitBuffer.initData, hA]

/-- Witness for C9: a type of alignment 2 (e.g. `u16`) panics in both
constructors, and a type of alignment 4 succeeds. -/
theorem dataBuffer_align_assert_witness :
    2 % 4 ≠ 0 ∧ DataBuffer.new 2 (37 : Nat) = .error alignPanicMsg ∧
    4 % 4 = 0 ∧ DataBuffer.new 4 (37 : Nat) = .ok ⟨37⟩ ∧
    UninitBuffer.initData 2 (37 : Nat) = .error alignPanicMsg :=
  ⟨by decide, ((dataBuffer_align_assert 2 Nat 37).2 (by decide)).1,
    by decide, ((dataBuffer_align_assert 4 Nat 37).1 (by decide)).1,
    ((dataBuffer_align_assert 2 Nat 37).2 (by decide)).2⟩

end LearnWgpu
